import Mathlib

set_option maxHeartbeats 1000000

/-!
Shallow embedding of `src/server.py` — an in-memory HTTP CRUD server for a
single resource type `User`, with an email-uniqueness index and an
id-assigning counter.  Python values decoded from JSON bodies are modelled by
`JVal`; the controller state (`self.users`, `self.last_id`, `self.emails`)
by `Ctrl`; Python exceptions by `PyErr` (domain `HTTPError`s versus other
exceptions such as `KeyError`/`TypeError`, which the dispatcher maps to 500).
The HTTP transport and JSON text (de)serialization are external collaborators
(spec §6): the decoded body is passed in as an `Except String (List (String ×
JVal))` parameter, and responses are modelled down to the rendered key-sorted
JSON objects that `json.dumps(..., sort_keys=True)` produces.
-/

namespace Server

/-- JSON scalar values as decoded by `json.loads` into Python objects.
`jbool` is kept separate because Python `bool` is a subclass of `int`
(`isinstance(True, int)` holds); `jfloat` and `jnull` always fail the
schema's `isinstance` checks so their payloads are irrelevant. -/
inductive JVal where
  | jint (n : Int)
  | jstr (s : String)
  | jbool (b : Bool)
  | jfloat
  | jnull
  deriving DecidableEq, Repr

/-- Embedding of the `HTTPError(code, reason)` exception class. -/
structure HTTPError where
  code : Nat
  reason : String
  deriving DecidableEq, Repr

/-- Python exceptions that can escape a controller call: a domain `HTTPError`,
or a builtin exception (`KeyError` from `set.remove`/`dict` lookup,
`TypeError` from `User(**data)` with missing arguments, `ValueError` from
`json.loads`).  `process_request` maps non-`http` errors to status 500. -/
inductive PyErr where
  | http (e : HTTPError)
  | keyError (m : String)
  | typeError (m : String)
  | valueError (m : String)
  deriving DecidableEq, Repr

/-- Message text carried by an exception (`str(e)` in the source). -/
def PyErr.message : PyErr → String
  | .http e => e.reason
  | .keyError m => m
  | .typeError m => m
  | .valueError m => m

/-- Python `isinstance(v, int)`: true for ints and bools (bool is a subclass
of int in Python). -/
def isinstInt : JVal → Bool
  | .jint _ => true
  | .jbool _ => true
  | _ => false

/-- Python `isinstance(v, basestring)`. -/
def isinstStr : JVal → Bool
  | .jstr _ => true
  | _ => false

/-- Numeric value of a Python int-like object (`True == 1`, `False == 0`);
only meaningful under an `isinstInt` guard. -/
def intVal : JVal → Int
  | .jint n => n
  | .jbool b => if b then 1 else 0
  | _ => 0

/-- String value of a Python string object; only meaningful under an
`isinstStr` guard. -/
def strVal : JVal → String
  | .jstr s => s
  | _ => ""

/-- Embedding of `UserSchema.check_value(name, value)`.  The `schema` dict
lookup is unfolded into the four keyed cases; `KeyError` on an unknown key
becomes the 400 "unknown value" error.  Type reprs in messages are
abbreviated (`int`, `basestring`) relative to Python's `<type ...>` form. -/
def check_value (k : String) (v : JVal) : Except HTTPError Unit :=
  if k = "age" then
    if isinstInt v then
      if 0 < intVal v ∧ intVal v < 100 then .ok ()
      else .error ⟨400, k ++ " does has wrong value"⟩
    else .error ⟨400, k ++ " does has wrong type, expected int"⟩
  else if k = "name" then
    if isinstStr v then
      if strVal v ≠ "" then .ok ()
      else .error ⟨400, k ++ " does has wrong value"⟩
    else .error ⟨400, k ++ " does has wrong type, expected basestring"⟩
  else if k = "email" then
    if isinstStr v then
      if strVal v ≠ "" then .ok ()
      else .error ⟨400, k ++ " does has wrong value"⟩
    else .error ⟨400, k ++ " does has wrong type, expected basestring"⟩
  else if k = "sex" then
    if isinstStr v then
      if strVal v = "male" ∨ strVal v = "female" then .ok ()
      else .error ⟨400, k ++ " does has wrong value"⟩
    else .error ⟨400, k ++ " does has wrong type, expected basestring"⟩
  else .error ⟨400, "unknown value " ++ k⟩

/-- Embedding of `UserSchema.validate(d)`: check every supplied field,
propagating the first failure.  Input dicts are modelled as association
lists (Python dict keys are unique; iteration order is the list order). -/
def validate : List (String × JVal) → Except HTTPError Unit
  | [] => .ok ()
  | (k, v) :: rest =>
    match check_value k v with
    | .ok () => validate rest
    | .error e => .error e

/-- The `User` resource (`__slots__ = (id, name, email, age, sex)`).
Fields other than `id` hold whatever decoded JSON values validation let
through, hence `JVal`. -/
structure User where
  id : Int
  name : JVal
  email : JVal
  age : JVal
  sex : JVal
  deriving DecidableEq, Repr

/-- Embedding of `setattr(user, k, v)` for a schema field.  `validate`
rejects every key outside the schema before `User.update` runs, so the
catch-all branch is unreachable from controller code. -/
def setField (u : User) (k : String) (v : JVal) : User :=
  if k = "name" then { u with name := v }
  else if k = "email" then { u with email := v }
  else if k = "age" then { u with age := v }
  else if k = "sex" then { u with sex := v }
  else u

/-- Embedding of `User.update(d)`: field-by-field overwrite. -/
def applyUpdate (u : User) (data : List (String × JVal)) : User :=
  data.foldl (fun acc kv => setField acc kv.1 kv.2) u

/-- The `UserRef` projection (`__slots__ = (id, name, url)`). -/
structure UserRef where
  id : Int
  name : JVal
  url : String
  deriving DecidableEq, Repr

/-- Embedding of `UserRef.__init__(user)`, with
`url = '/users/{}'.format(user.id)`. -/
def mkUserRef (u : User) : UserRef :=
  ⟨u.id, u.name, "/users/" ++ toString u.id⟩

/-- Python `d.get(k)` on the decoded-body dict. -/
def getKey (data : List (String × JVal)) (k : String) : Option JVal :=
  match data with
  | [] => none
  | (k2, v) :: rest => if k2 = k then some v else getKey rest k

/-- Embedding of `User(**data)` after `data['id_'] = id_` was set: requires
the keyword arguments `name`, `email`, `age`, `sex` (besides `id_`), raising
`TypeError` when one is missing.  Unexpected keys cannot occur here because
`create` validates `data` first and `validate` rejects unknown fields. -/
def mkUser (data : List (String × JVal)) (id_ : Int) : Except PyErr User :=
  match getKey data "name", getKey data "email", getKey data "age", getKey data "sex" with
  | some n, some e, some a, some s => .ok ⟨id_, n, e, a, s⟩
  | _, _, _, _ => .error (.typeError "__init__ takes exactly 6 arguments")

/-- Python `set.add` on the email index (`self.emails`), modelled as a
duplicate-free list. -/
def setAdd (s : List JVal) (e : JVal) : List JVal :=
  if e ∈ s then s else s ++ [e]

/-- Python `set.remove`: raises `KeyError` when the element is absent. -/
def setRemove (s : List JVal) (e : JVal) : Option PyErr × List JVal :=
  if e ∈ s then (none, s.erase e) else (some (.keyError "KeyError"), s)

/-- Embedding of `UserController.__update_email(new_email, old_email)`.
Returns the possibly-raised exception together with the email set as left
after whatever mutations happened before the raise (Python mutates
`self.emails` in place, so a raise after `add` keeps the added element). -/
def update_email (emails : List JVal) (new_email old_email : Option JVal) :
    Option PyErr × List JVal :=
  if new_email = old_email then (none, emails)
  else
    match new_email with
    | some e =>
      if e ∈ emails then (some (.http ⟨409, "Email is not unique"⟩), emails)
      else
        match old_email with
        | some oe => setRemove (setAdd emails e) oe
        | none => (none, setAdd emails e)
    | none =>
      match old_email with
      | some oe => setRemove emails oe
      | none => (none, emails)

/-- Python dict lookup `d[k]` on the user map, as an option. -/
def dictGet (d : List (Int × User)) (k : Int) : Option User :=
  match d with
  | [] => none
  | (k2, v) :: rest => if k2 = k then some v else dictGet rest k

/-- Python dict assignment `d[k] = v`: replace the entry if the key is
present, otherwise append a new entry. -/
def dictSet (d : List (Int × User)) (k : Int) (v : User) : List (Int × User) :=
  match d with
  | [] => [(k, v)]
  | (k2, v2) :: rest => if k2 = k then (k, v) :: rest else (k2, v2) :: dictSet rest k v

/-- Python `del d[k]`: `none` models the `KeyError` raised when `k` is
absent. -/
def dictDel (d : List (Int × User)) (k : Int) : Option (List (Int × User)) :=
  match d with
  | [] => none
  | (k2, v) :: rest =>
    if k2 = k then some rest else (dictDel rest k).map (fun r => (k2, v) :: r)

/-- State of `UserController`: `self.users`, `self.last_id`, `self.emails`.
The lock only serializes the critical sections; the sequential semantics
modelled here executes them in program order. -/
structure Ctrl where
  users : List (Int × User)
  last_id : Int
  emails : List JVal
  deriving DecidableEq, Repr

/-- Initial controller state from `UserController.__init__`. -/
def Ctrl.init : Ctrl := ⟨[], 1, []⟩

/-- Whitespace characters stripped by Python `int(str)` (space, tab,
newline, carriage return, vertical tab, form feed). -/
def pyIsSpace (c : Char) : Bool :=
  c = ' ' || c = '\t' || c = '\n' || c = '\r' || c = Char.ofNat 11 || c = Char.ofNat 12

/-- Decimal value of a digit string. -/
def digitsVal (cs : List Char) : Nat :=
  cs.foldl (fun a c => 10 * a + (c.toNat - 48)) 0

/-- Embedding of Python 2 `int(s)` on a `str`: strip surrounding whitespace,
allow one optional sign, then a non-empty run of decimal digits; `none`
models the `ValueError` raised otherwise. -/
def pyParseInt (s : String) : Option Int :=
  match ((s.toList.dropWhile pyIsSpace).reverse.dropWhile pyIsSpace).reverse with
  | [] => none
  | c :: rest =>
    let digits := if c = '-' || c = '+' then rest else c :: rest
    let sign : Int := if c = '-' then -1 else 1
    if !digits.isEmpty && digits.all Char.isDigit then
      some (sign * (digitsVal digits : Int))
    else none

/-- Embedding of `UserController.get(id_str)` (reads state only): parse the
id (`__user_id_from_str`, 404 on `ValueError`), then look it up (404 on
`KeyError`). -/
def get (st : Ctrl) (id_str : String) : Except PyErr User :=
  match pyParseInt id_str with
  | none => .error (.http ⟨404, "users with id " ++ id_str ++ " is not found"⟩)
  | some n =>
    match dictGet st.users n with
    | some u => .ok u
    | none => .error (.http ⟨404, "user(" ++ toString n ++ ") is not found"⟩)

/-- Embedding of `UserController.create(data)`: validate, reserve the next
id (`__next_id` increments `last_id` and is reached only after validation
succeeds), build the `User` (`TypeError` when a required field is missing),
register the email (409 on duplicate), store the user, return its ref.
The returned state reflects exactly the mutations performed before any
raise: the counter advance survives every later failure. -/
def create (st : Ctrl) (data : List (String × JVal)) : Except PyErr UserRef × Ctrl :=
  match validate data with
  | .error e => (.error (.http e), st)
  | .ok () =>
    let id_ := st.last_id
    let st1 : Ctrl := { st with last_id := st.last_id + 1 }
    match mkUser data id_ with
    | .error e => (.error e, st1)
    | .ok user =>
      match update_email st1.emails (some user.email) none with
      | (some e, emails2) => (.error e, { st1 with emails := emails2 })
      | (none, emails2) =>
        (.ok (mkUserRef user),
          { st1 with emails := emails2, users := dictSet st1.users id_ user })

/-- Sorted key list, embedding Python `sorted(self.users)`. -/
def sortKeys (l : List Int) : List Int := List.insertionSort (· ≤ ·) l

/-- Embedding of `UserController.list()`: iterate the sorted keys, skipping
ids that disappear between snapshot and lookup (the `except KeyError: pass`;
sequentially every lookup succeeds). -/
def listUsers (st : Ctrl) : List User :=
  (sortKeys (st.users.map Prod.fst)).filterMap (fun i => dictGet st.users i)

/-- Embedding of `UserController.update(id_str, data)`: resolve the user,
validate, adjust the email index with `__update_email(data.get('email'),
user.email)`, then overwrite the supplied fields in place.  Note that when
`data` has no `email` key the first argument is `None` and `__update_email`
removes the user's current email from the index. -/
def update (st : Ctrl) (id_str : String) (data : List (String × JVal)) :
    Except PyErr User × Ctrl :=
  match get st id_str with
  | .error e => (.error e, st)
  | .ok user =>
    match validate data with
    | .error e => (.error (.http e), st)
    | .ok () =>
      match update_email st.emails (getKey data "email") (some user.email) with
      | (some e, emails2) => (.error e, { st with emails := emails2 })
      | (none, emails2) =>
        let userNew := applyUpdate user data
        (.ok userNew,
          { st with emails := emails2, users := dictSet st.users user.id userNew })

/-- Embedding of `UserController.delete(id_str)`: resolve the user, drop its
email from the index, remove it from the map.  Returns `()` (Python
`None`). -/
def delete (st : Ctrl) (id_str : String) : Except PyErr Unit × Ctrl :=
  match get st id_str with
  | .error e => (.error e, st)
  | .ok user =>
    match update_email st.emails none (some user.email) with
    | (some e, emails2) => (.error e, { st with emails := emails2 })
    | (none, emails2) =>
      match dictDel st.users user.id with
      | none => (.error (.keyError "KeyError"), { st with emails := emails2 })
      | some users2 => (.ok (), { st with emails := emails2, users := users2 })

/-- Result value a route handler returns to `process_request` on success. -/
inductive HandlerResult where
  | rUser (u : User)
  | rUserRef (r : UserRef)
  | rUsers (l : List User)
  | rNone
  deriving DecidableEq, Repr

/-- A rendered JSON response body: an object (key-sorted, as produced by
`json.dumps(..., sort_keys=True)` over `to_dict`) or an array of objects. -/
inductive Rendered where
  | robj (fields : List (String × JVal))
  | rarr (items : List (List (String × JVal)))
  deriving DecidableEq, Repr

/-- Embedding of `User.to_dict` under `sort_keys=True`: the slots in
alphabetical key order. -/
def User.sorted_dict (u : User) : List (String × JVal) :=
  [("age", u.age), ("email", u.email), ("id", .jint u.id), ("name", u.name), ("sex", u.sex)]

/-- Embedding of `UserRef.to_dict` under `sort_keys=True`. -/
def UserRef.sorted_dict (r : UserRef) : List (String × JVal) :=
  [("id", .jint r.id), ("name", r.name), ("url", .jstr r.url)]

/-- JSON rendering of a successful handler result; `none` models Python
`None` (a handler that returned no value). -/
def renderResult : HandlerResult → Option Rendered
  | .rUser u => some (.robj u.sorted_dict)
  | .rUserRef r => some (.robj r.sorted_dict)
  | .rUsers l => some (.rarr (l.map User.sorted_dict))
  | .rNone => none

/-- An HTTP response as observed by the client: status line plus rendered
body (`none` means no body was written). -/
structure Response where
  status : Nat
  body : Option Rendered
  deriving DecidableEq, Repr

/-- Embedding of `HTTPHandler.write_response(status, data)`: a `None` body
is answered with a bare 204, anything else with the given status and the
JSON-serialized body. -/
def write_response (status : Nat) (data : Option Rendered) : Response :=
  match data with
  | some r => ⟨status, some r⟩
  | none => ⟨204, none⟩

/-- Embedding of `HTTPHandler.process_request(status, handler)`: a normal
return keeps the route's status, an `HTTPError` substitutes its own code,
any other exception becomes 500; error bodies are `{"error": message}`. -/
def process_request (status : Nat) (result : Except PyErr HandlerResult) : Response :=
  match result with
  | .ok d => write_response status (renderResult d)
  | .error (.http e) => write_response e.code (some (.robj [("error", .jstr e.reason)]))
  | .error e => write_response 500 (some (.robj [("error", .jstr e.message)]))

/-- Boolean test that the first list is an initial segment of the second. -/
def listLeads : List Char → List Char → Bool
  | [], _ => true
  | _ :: _, [] => false
  | a :: as, b :: bs => a == b && listLeads as bs

/-- Python `s.startswith(pre)`, via the underlying character lists. -/
def strLeads (s pre : String) : Bool := listLeads pre.toList s.toList

/-- Embedding of `HTTPHandler.get_data`: an absent `Content-Type` header
raises `KeyError` (Python `self.headers[name]` on a missing header), a
header not starting with `application/json` raises `HTTPError(415)`, and a
body that is not valid JSON raises `ValueError` from `json.loads`.  The
decoded body itself is a parameter (JSON parsing is an external
collaborator). -/
def get_data (contentType : Option String)
    (parsedBody : Except String (List (String × JVal))) :
    Except PyErr (List (String × JVal)) :=
  match contentType with
  | none => .error (.keyError "content-type")
  | some ct =>
    if strLeads ct "application/json" then
      match parsedBody with
      | .ok d => .ok d
      | .error m => .error (.valueError m)
    else .error (.http ⟨415, "expected application/json"⟩)

/-- Embedding of the `try/except` in `HTTPHandler.call_with_body`: EVERY
exception escaping `get_data` — including the `HTTPError(415)` it raises
itself — is caught and re-raised as `HTTPError(400, str(e))`. -/
def wrap_body_error (r : Except PyErr (List (String × JVal))) :
    Except PyErr (List (String × JVal)) :=
  match r with
  | .ok d => .ok d
  | .error e => .error (.http ⟨400, e.message⟩)

/-- The `GET /users/{id}` route: `process_request(200, get)`. -/
def do_GET_user (st : Ctrl) (id_str : String) : Response :=
  process_request 200 ((get st id_str).map .rUser)

/-- The `GET /users/` route: `process_request(200, list)`. -/
def do_GET_list (st : Ctrl) : Response :=
  process_request 200 (.ok (.rUsers (listUsers st)))

/-- The `POST /users/` route: `process_request(201,
call_with_body(create))`, also returning the resulting controller state. -/
def do_POST_users (st : Ctrl) (ct : Option String)
    (pb : Except String (List (String × JVal))) : Response × Ctrl :=
  match wrap_body_error (get_data ct pb) with
  | .error e => (process_request 201 (.error e), st)
  | .ok data =>
    let r := create st data
    (process_request 201 (r.1.map .rUserRef), r.2)

/-- The `PUT /users/{id}` route: `process_request(200,
call_with_body(update id))`. -/
def do_PUT_user (st : Ctrl) (id_str : String) (ct : Option String)
    (pb : Except String (List (String × JVal))) : Response × Ctrl :=
  match wrap_body_error (get_data ct pb) with
  | .error e => (process_request 200 (.error e), st)
  | .ok data =>
    let r := update st id_str data
    (process_request 200 (r.1.map .rUser), r.2)

/-- The `DELETE /users/{id}` route: `process_request(200, delete)`; a
successful delete returns Python `None`. -/
def do_DELETE_user (st : Ctrl) (id_str : String) : Response × Ctrl :=
  let r := delete st id_str
  (process_request 200 (r.1.map (fun _ => .rNone)), r.2)

/-- A state-mutating controller call, for reasoning over operation
sequences. -/
inductive Op where
  | opCreate (data : List (String × JVal))
  | opUpdate (id_str : String) (data : List (String × JVal))
  | opDelete (id_str : String)
  deriving DecidableEq, Repr

/-- State transition of one operation (the state component of the call). -/
def step (st : Ctrl) : Op → Ctrl
  | .opCreate d => (create st d).2
  | .opUpdate s d => (update st s d).2
  | .opDelete s => (delete st s).2

/-- Run a sequence of operations from a given state. -/
def runFrom (st : Ctrl) (ops : List Op) : Ctrl := ops.foldl step st

/-- Run a sequence of operations from the initial controller state. -/
def run (ops : List Op) : Ctrl := runFrom Ctrl.init ops

/-! ### Concrete inputs used by examples, counterexamples and witnesses -/

/-- A fully valid creation body: name A, email a@x.com, age 30, sex male. -/
def data7 : List (String × JVal) :=
  [("name", .jstr "A"), ("email", .jstr "a@x.com"), ("age", .jint 30), ("sex", .jstr "male")]

/-- A second valid creation body reusing the email `a@x.com`. -/
def dataC : List (String × JVal) :=
  [("name", .jstr "C"), ("email", .jstr "a@x.com"), ("age", .jint 40), ("sex", .jstr "female")]

/-- A valid creation body with email `b@x.com`. -/
def dataB : List (String × JVal) :=
  [("name", .jstr "B"), ("email", .jstr "b@x.com"), ("age", .jint 20), ("sex", .jstr "female")]

/-- A valid creation body with email `d@x.com`. -/
def dataD : List (String × JVal) :=
  [("name", .jstr "D"), ("email", .jstr "d@x.com"), ("age", .jint 25), ("sex", .jstr "male")]

/-- State after creating the `data7` user in the fresh controller. -/
def st7 : Ctrl := (create Ctrl.init data7).2

/-! ### Schema validation (claim C5) -/

/-- Specification-side description of a single valid field, mirroring the
spec's field rules: `age` an integer with `0 < age < 100`, `name` and
`email` non-empty text, `sex` exactly `male` or `female`; any other field
name is unrecognized. -/
def fieldOk (k : String) (v : JVal) : Bool :=
  if k = "age" then isinstInt v && decide (0 < intVal v) && decide (intVal v < 100)
  else if k = "name" then isinstStr v && !(strVal v == "")
  else if k = "email" then isinstStr v && !(strVal v == "")
  else if k = "sex" then isinstStr v && (strVal v == "male" || strVal v == "female")
  else false

/-- Operation sequence breaking email uniqueness: create user 1 with email
a@x.com, update user 1 supplying only a new name (which drops a@x.com from
the index), then create user 2 with the same email a@x.com. -/
def c1ops : List Op :=
  [.opCreate data7, .opUpdate "1" [("name", .jstr "B")], .opCreate dataC]

/-- Operation sequence creating users with ids 1, 2, 3 and deleting id 2. -/
def c8ops : List Op :=
  [.opCreate data7, .opCreate dataB, .opCreate dataD, .opDelete "2"]

/-- Reachability invariant of the controller state: every stored entry's
`id` field equals its key, keys are distinct, every key is strictly below
the counter, and the counter is at least 1. -/
def CtrlInv (st : Ctrl) : Prop :=
  (∀ p ∈ st.users, (p.2).id = p.1) ∧
  (st.users.map Prod.fst).Nodup ∧
  (∀ p ∈ st.users, p.1 < st.last_id) ∧
  1 ≤ st.last_id

/-- A single field check succeeds exactly when the field satisfies the
spec-side rule. -/
theorem check_value_ok_iff (k : String) (v : JVal) :
    check_value k v = .ok () ↔ fieldOk k v = true := by
  unfold check_value fieldOk
  split_ifs <;> simp_all

/-- Every schema violation carries status code 400. -/
theorem check_value_error_code (k : String) (v : JVal) (e : HTTPError)
    (h : check_value k v = .error e) : e.code = 400 := by
  unfold check_value at h
  split_ifs at h <;> first
    | exact Except.noConfusion h
    | (injection h with h2; rw [← h2])

/-- Validation succeeds exactly when every supplied field passes its
check. -/
theorem validate_ok_iff (d : List (String × JVal)) :
    validate d = .ok () ↔ ∀ p ∈ d, check_value p.1 p.2 = .ok () := by
  induction d with
  | nil => simp [validate]
  | cons hd tl ih =>
    obtain ⟨k, v⟩ := hd
    simp only [validate]
    cases hcv : check_value k v with
    | ok u =>
      cases u
      constructor
      · intro h p hp
        rcases List.mem_cons.mp hp with h1 | h1
        · rw [h1]; exact hcv
        · exact (ih.mp h) p h1
      · intro h
        exact ih.mpr (fun p hp => h p (List.mem_cons_of_mem _ hp))
    | error e =>
      constructor
      · intro h; exact Except.noConfusion h
      · intro h
        have h1 := h (k, v) (List.mem_cons_self _ _)
        rw [hcv] at h1
        exact Except.noConfusion h1

/-- When `validate` fails, the error has status code 400. -/
theorem validate_error_code (d : List (String × JVal)) (e : HTTPError)
    (h : validate d = .error e) : e.code = 400 := by
  induction d with
  | nil => exact Except.noConfusion h
  | cons hd tl ih =>
    obtain ⟨k, v⟩ := hd
    simp only [validate] at h
    cases hcv : check_value k v with
    | ok u => cases u; rw [hcv] at h; exact ih h
    | error e2 =>
      rw [hcv] at h
      injection h with h2
      rw [← h2]
      exact check_value_error_code k v e2 hcv

/-- C5: schema validation fails with a 400 error exactly when some supplied
field is unrecognized, has the wrong type, or fails its value predicate;
age must be an integer with `0 < age < 100` (0, 100 and non-integers fail,
1 and 99 succeed), name and email must be non-empty text, and sex must be
exactly `male` or `female`. -/
theorem C5_schema_validation :
    (∀ d, validate d = .ok () ↔ ∀ p ∈ d, fieldOk p.1 p.2 = true)
  ∧ (∀ d e, validate d = .error e → e.code = 400)
  ∧ check_value "age" (.jint 0) = .error ⟨400, "age does has wrong value"⟩
  ∧ check_value "age" (.jint 100) = .error ⟨400, "age does has wrong value"⟩
  ∧ check_value "age" (.jstr "30") = .error ⟨400, "age does has wrong type, expected int"⟩
  ∧ check_value "age" .jfloat = .error ⟨400, "age does has wrong type, expected int"⟩
  ∧ check_value "age" (.jint 1) = .ok ()
  ∧ check_value "age" (.jint 99) = .ok ()
  ∧ check_value "name" (.jstr "") = .error ⟨400, "name does has wrong value"⟩
  ∧ check_value "name" (.jint 3) = .error ⟨400, "name does has wrong type, expected basestring"⟩
  ∧ check_value "email" (.jstr "") = .error ⟨400, "email does has wrong value"⟩
  ∧ check_value "sex" (.jstr "other") = .error ⟨400, "sex does has wrong value"⟩
  ∧ check_value "sex" (.jstr "male") = .ok ()
  ∧ check_value "sex" (.jstr "female") = .ok ()
  ∧ check_value "hobby" .jnull = .error ⟨400, "unknown value hobby"⟩ := by
  refine ⟨fun d => ?_, validate_error_code, ?_⟩
  · rw [validate_ok_iff]
    exact ⟨fun h p hp => (check_value_ok_iff p.1 p.2).mp (h p hp),
           fun h p hp => (check_value_ok_iff p.1 p.2).mpr (h p hp)⟩
  · repeat' constructor

/-- Witness for C5: concrete instances of both general conjuncts — a fully
valid body validates, and a body with an unknown field fails with code
400. -/
theorem C5_schema_validation_witness :
    validate data7 = .ok ()
  ∧ (⟨400, "unknown value hobby"⟩ : HTTPError).code = 400 := by
  constructor
  · exact (C5_schema_validation.1 data7).mpr (by decide)
  · exact C5_schema_validation.2.1 [("hobby", .jnull)] ⟨400, "unknown value hobby"⟩ rfl

/-! ### get semantics (claim C6) -/

/-- C6: `get` fails exactly when the id string does not parse as an integer
or no user is stored under the parsed id, every failure is an `HTTPError`
with status 404, and on success it returns precisely the stored `User`
record. -/
theorem C6_get_not_found (st : Ctrl) (s : String) :
    (pyParseInt s = none → ∃ e, get st s = .error (.http e) ∧ e.code = 404)
  ∧ (∀ n, pyParseInt s = some n → dictGet st.users n = none →
      ∃ e, get st s = .error (.http e) ∧ e.code = 404)
  ∧ (∀ n u, pyParseInt s = some n → dictGet st.users n = some u → get st s = .ok u)
  ∧ (∀ er, get st s = .error er →
      ∃ e, er = .http e ∧ e.code = 404 ∧
        (pyParseInt s = none ∨ ∃ n, pyParseInt s = some n ∧ dictGet st.users n = none)) := by
  refine ⟨?_, ?_, ?_, ?_⟩
  · intro h
    exact ⟨⟨404, "users with id " ++ s ++ " is not found"⟩, by simp [get, h], rfl⟩
  · intro n h1 h2
    exact ⟨⟨404, "user(" ++ toString n ++ ") is not found"⟩, by simp [get, h1, h2], rfl⟩
  · intro n u h1 h2
    simp [get, h1, h2]
  · intro er
    unfold get
    cases hp : pyParseInt s with
    | none =>
      intro h
      injection h with h2
      exact ⟨_, h2.symm, rfl, Or.inl rfl⟩
    | some n =>
      dsimp only
      cases hg : dictGet st.users n with
      | none =>
        intro h
        injection h with h2
        exact ⟨_, h2.symm, rfl, Or.inr ⟨n, rfl, hg⟩⟩
      | some u =>
        intro h
        exact Except.noConfusion h

/-- Witness for C6: in the one-user state, `get` succeeds on "1", and
fails with 404 both on the non-numeric string "x" and on the never-issued
id "7". -/
theorem C6_get_not_found_witness :
    get st7 "1" = .ok ⟨1, .jstr "A", .jstr "a@x.com", .jint 30, .jstr "male"⟩
  ∧ (∃ e, get st7 "x" = .error (.http e) ∧ e.code = 404)
  ∧ (∃ e, get st7 "7" = .error (.http e) ∧ e.code = 404) :=
  ⟨(C6_get_not_found st7 "1").2.2.1 1 _ rfl rfl,
   (C6_get_not_found st7 "x").1 rfl,
   (C6_get_not_found st7 "7").2.1 7 rfl rfl⟩

/-! ### Round trip (claim C7) and the email-index and content-type bugs
(claims C1, C2, C3) -/

/-- C7: from the empty store, creating user A answers 201 with body exactly
`id 1, name A, url /users/1`, and a subsequent `GET /users/1` answers 200
with the full user record `id 1, name A, email a@x.com, age 30, sex male`. -/
theorem C7_create_get_round_trip :
    (do_POST_users Ctrl.init (some "application/json") (.ok data7)).1
      = ⟨201, some (.robj [("id", .jint 1), ("name", .jstr "A"), ("url", .jstr "/users/1")])⟩
  ∧ do_GET_user (do_POST_users Ctrl.init (some "application/json") (.ok data7)).2 "1"
      = ⟨200, some (.robj [("age", .jint 30), ("email", .jstr "a@x.com"), ("id", .jint 1),
          ("name", .jstr "A"), ("sex", .jstr "male")])⟩ :=
  ⟨rfl, rfl⟩

/-- C1 is violated by the code: after `c1ops`, users 1 and 2 are both
stored with email a@x.com while the uniqueness index holds a single entry,
so two distinct stored users share an email and the index is not the set of
stored emails. -/
theorem C1_email_uniqueness_violated :
    dictGet (run c1ops).users 1
      = some ⟨1, .jstr "B", .jstr "a@x.com", .jint 30, .jstr "male"⟩
  ∧ dictGet (run c1ops).users 2
      = some ⟨2, .jstr "C", .jstr "a@x.com", .jint 40, .jstr "female"⟩
  ∧ (run c1ops).emails = [.jstr "a@x.com"] :=
  ⟨rfl, rfl, rfl⟩

/-- C2 is violated by the code: updating user 1 with a body that does not
include `email` succeeds and leaves the user's email in place, but removes
that email from the uniqueness index (the index goes from `[a@x.com]` to
`[]`), instead of leaving the index unchanged. -/
theorem C2_update_without_email_clears_index :
    st7.emails = [.jstr "a@x.com"]
  ∧ (update st7 "1" [("name", .jstr "B")]).1
      = .ok ⟨1, .jstr "B", .jstr "a@x.com", .jint 30, .jstr "male"⟩
  ∧ (update st7 "1" [("name", .jstr "B")]).2.emails = []
  ∧ dictGet (update st7 "1" [("name", .jstr "B")]).2.users 1
      = some ⟨1, .jstr "B", .jstr "a@x.com", .jint 30, .jstr "male"⟩ :=
  ⟨rfl, rfl, rfl, rfl⟩

/-- C3 is violated by the code: POST and PUT requests with a wrong or
absent `Content-Type` are answered 400, not 415 — `call_with_body` catches
the `HTTPError(415)` raised by `get_data` (as well as the `KeyError` from
the missing header) with a blanket `except Exception` and re-raises it as
`HTTPError(400, str(e))`. -/
theorem C3_wrong_content_type_gives_400 :
    (do_POST_users Ctrl.init (some "text/plain") (.ok data7)).1
      = ⟨400, some (.robj [("error", .jstr "expected application/json")])⟩
  ∧ (do_POST_users Ctrl.init none (.ok data7)).1
      = ⟨400, some (.robj [("error", .jstr "content-type")])⟩
  ∧ (do_PUT_user st7 "1" (some "text/html") (.ok [("name", .jstr "B")])).1
      = ⟨400, some (.robj [("error", .jstr "expected application/json")])⟩
  ∧ (do_PUT_user st7 "1" none (.ok [("name", .jstr "B")])).1
      = ⟨400, some (.robj [("error", .jstr "content-type")])⟩ :=
  ⟨rfl, rfl, rfl, rfl⟩

/-! ### Status mapping (claim C9) -/

/-- Decoding a JSON body under the JSON content type succeeds with the
decoded mapping. -/
theorem get_data_json (d : List (String × JVal)) :
    get_data (some "application/json") (.ok d) = .ok d := rfl

/-- C9: a success carrying no value is rendered as 204 with an empty body,
overriding the route's nominal status (in particular a successful DELETE);
every other success uses the route's status — 200 for GET/PUT/DELETE, 201
for POST — with a JSON body. -/
theorem C9_none_gives_204 (st : Ctrl) (id_str : String) :
    (∀ status, process_request status (.ok .rNone) = ⟨204, none⟩)
  ∧ (∀ status d, renderResult d ≠ none →
      process_request status (.ok d) = ⟨status, renderResult d⟩)
  ∧ ((delete st id_str).1 = .ok () → (do_DELETE_user st id_str).1 = ⟨204, none⟩)
  ∧ (∀ u, get st id_str = .ok u →
      do_GET_user st id_str = ⟨200, some (.robj u.sorted_dict)⟩)
  ∧ do_GET_list st = ⟨200, some (.rarr ((listUsers st).map User.sorted_dict))⟩
  ∧ (∀ data ref st2, create st data = (.ok ref, st2) →
      do_POST_users st (some "application/json") (.ok data)
        = (⟨201, some (.robj ref.sorted_dict)⟩, st2))
  ∧ (∀ data u st2, update st id_str data = (.ok u, st2) →
      do_PUT_user st id_str (some "application/json") (.ok data)
        = (⟨200, some (.robj u.sorted_dict)⟩, st2)) := by
  refine ⟨fun status => rfl, ?_, ?_, ?_, rfl, ?_, ?_⟩
  · intro status d hd
    cases d <;> simp_all [process_request, write_response, renderResult]
  · intro h
    simp only [do_DELETE_user, h]
    rfl
  · intro u h
    simp only [do_GET_user, h]
    rfl
  · intro data ref st2 h
    simp only [do_POST_users, get_data_json, wrap_body_error, h]
    rfl
  · intro data u st2 h
    simp only [do_PUT_user, get_data_json, wrap_body_error, h]
    rfl

/-- Witness for C9: deleting the only user of the one-user store answers
204 with an empty body, and getting it answers 200 with its full record. -/
theorem C9_none_gives_204_witness :
    (do_DELETE_user st7 "1").1 = ⟨204, none⟩
  ∧ do_GET_user st7 "1" = ⟨200, some (.robj
      [("age", .jint 30), ("email", .jstr "a@x.com"), ("id", .jint 1),
       ("name", .jstr "A"), ("sex", .jstr "male")])⟩ :=
  ⟨(C9_none_gives_204 st7 "1").2.2.1 rfl,
   (C9_none_gives_204 st7 "1").2.2.2.1
     ⟨1, .jstr "A", .jstr "a@x.com", .jint 30, .jstr "male"⟩ rfl⟩

/-! ### Creation with missing required fields (claim C10) -/

/-- C10: a POST body whose supplied fields all validate but which omits one
of the required constructor fields is answered 500 (the missing-argument
`TypeError` from `User(**data)` is not an `HTTPError`), an id is still
consumed from the counter, and neither the user map nor the email index
changes. -/
theorem C10_missing_field_500 (st : Ctrl) (data : List (String × JVal))
    (hv : validate data = .ok ())
    (hmiss : getKey data "name" = none ∨ getKey data "email" = none ∨
             getKey data "age" = none ∨ getKey data "sex" = none) :
    (do_POST_users st (some "application/json") (.ok data)).1.status = 500
  ∧ (do_POST_users st (some "application/json") (.ok data)).2
      = { st with last_id := st.last_id + 1 } := by
  have hmk : mkUser data st.last_id = .error (.typeError "__init__ takes exactly 6 arguments") := by
    cases h1 : getKey data "name" <;> cases h2 : getKey data "email" <;>
      cases h3 : getKey data "age" <;> cases h4 : getKey data "sex" <;>
      simp_all [mkUser]
  simp only [do_POST_users, get_data_json, wrap_body_error, create, hv, hmk]
  exact ⟨rfl, by trivial⟩

/-- Witness for C10: posting the valid-but-incomplete body `name A` from
the fresh store answers 500 and consumes id 1 while storing nothing. -/
theorem C10_missing_field_500_witness :
    (do_POST_users Ctrl.init (some "application/json")
        (.ok [("name", .jstr "A")])).1.status = 500
  ∧ (do_POST_users Ctrl.init (some "application/json")
        (.ok [("name", .jstr "A")])).2
      = { Ctrl.init with last_id := Ctrl.init.last_id + 1 } :=
  C10_missing_field_500 Ctrl.init [("name", .jstr "A")] rfl
    (Or.inr (Or.inl rfl))

/-! ### Dictionary and field helper lemmas -/

/-- Entries found by lookup are entries of the map. -/
theorem dictGet_mem {d : List (Int × User)} {k : Int} {u : User}
    (h : dictGet d k = some u) : (k, u) ∈ d := by
  induction d with
  | nil => exact Option.noConfusion h
  | cons hd tl ih =>
    obtain ⟨k2, v⟩ := hd
    by_cases hk : k2 = k
    · subst hk
      simp only [dictGet, if_pos rfl] at h
      injection h with h2
      subst h2
      exact List.mem_cons_self _ _
    · simp only [dictGet, if_neg hk] at h
      exact List.mem_cons_of_mem _ (ih h)

/-- Entries of an updated map are the new binding or old entries. -/
theorem dictSet_mem {d : List (Int × User)} {k : Int} {v : User} {p : Int × User}
    (h : p ∈ dictSet d k v) : p = (k, v) ∨ p ∈ d := by
  induction d with
  | nil => simpa [dictSet] using h
  | cons hd tl ih =>
    obtain ⟨k2, v2⟩ := hd
    by_cases hk : k2 = k
    · subst hk
      simp only [dictSet, if_pos rfl] at h
      rcases List.mem_cons.mp h with h1 | h1
      · exact Or.inl h1
      · exact Or.inr (List.mem_cons_of_mem _ h1)
    · simp only [dictSet, if_neg hk] at h
      rcases List.mem_cons.mp h with h1 | h1
      · exact Or.inr (h1 ▸ List.mem_cons_self _ _)
      · rcases ih h1 with h2 | h2
        · exact Or.inl h2
        · exact Or.inr (List.mem_cons_of_mem _ h2)

/-- Assigning to a present key keeps the key list unchanged. -/
theorem dictSet_keys_of_mem {d : List (Int × User)} {k : Int} {v : User}
    (h : k ∈ d.map Prod.fst) :
    (dictSet d k v).map Prod.fst = d.map Prod.fst := by
  induction d with
  | nil => simp at h
  | cons hd tl ih =>
    obtain ⟨k2, v2⟩ := hd
    by_cases hk : k2 = k
    · subst hk; simp [dictSet]
    · simp only [List.map_cons, List.mem_cons] at h
      rcases h with h1 | h1
      · exact absurd h1.symm hk
      · simp [dictSet, if_neg hk, ih h1]

/-- Assigning to an absent key appends the binding. -/
theorem dictSet_keys_of_not_mem {d : List (Int × User)} {k : Int} {v : User}
    (h : k ∉ d.map Prod.fst) :
    (dictSet d k v).map Prod.fst = d.map Prod.fst ++ [k] := by
  induction d with
  | nil => simp [dictSet]
  | cons hd tl ih =>
    obtain ⟨k2, v2⟩ := hd
    simp only [List.map_cons, List.mem_cons] at h
    push_neg at h
    obtain ⟨h1, h2⟩ := h
    simp [dictSet, if_neg (Ne.symm h1), ih h2]

/-- Entries of a map after deletion are entries of the original map. -/
theorem dictDel_mem {d d2 : List (Int × User)} {k : Int}
    (h : dictDel d k = some d2) {p : Int × User} (hp : p ∈ d2) : p ∈ d := by
  induction d generalizing d2 with
  | nil => exact Option.noConfusion h
  | cons hd tl ih =>
    obtain ⟨k2, v2⟩ := hd
    by_cases hk : k2 = k
    · subst hk
      simp only [dictDel, if_pos rfl] at h
      injection h with h2
      subst h2
      exact List.mem_cons_of_mem _ hp
    · simp only [dictDel, if_neg hk] at h
      cases hdd : dictDel tl k with
      | none => rw [hdd] at h; exact Option.noConfusion h
      | some rest =>
        rw [hdd] at h
        injection h with h2
        subst h2
        rcases List.mem_cons.mp hp with h1 | h1
        · exact h1 ▸ List.mem_cons_self _ _
        · exact List.mem_cons_of_mem _ (ih hdd h1)

/-- Deletion produces a map whose key list is a sublist of the original. -/
theorem dictDel_keys_sublist {d d2 : List (Int × User)} {k : Int}
    (h : dictDel d k = some d2) :
    (d2.map Prod.fst).Sublist (d.map Prod.fst) := by
  induction d generalizing d2 with
  | nil => exact Option.noConfusion h
  | cons hd tl ih =>
    obtain ⟨k2, v2⟩ := hd
    by_cases hk : k2 = k
    · subst hk
      simp only [dictDel, if_pos rfl] at h
      injection h with h2
      subst h2
      exact List.sublist_cons_self _ _
    · simp only [dictDel, if_neg hk] at h
      cases hdd : dictDel tl k with
      | none => rw [hdd] at h; exact Option.noConfusion h
      | some rest =>
        rw [hdd] at h
        injection h with h2
        subst h2
        simp only [List.map_cons]
        exact List.Sublist.cons₂ _ (ih hdd)

/-- Overwriting a schema field never touches the `id` slot. -/
theorem setField_id (u : User) (k : String) (v : JVal) :
    (setField u k v).id = u.id := by
  unfold setField
  split_ifs <;> rfl

/-- Updating fields never touches the `id` slot (validation rejects `id` as
an unknown field before it could reach `setattr`). -/
theorem applyUpdate_id (u : User) (d : List (String × JVal)) :
    (applyUpdate u d).id = u.id := by
  induction d generalizing u with
  | nil => rfl
  | cons hd tl ih =>
    have h1 : applyUpdate u (hd :: tl) = applyUpdate (setField u hd.1 hd.2) tl := rfl
    rw [h1, ih (setField u hd.1 hd.2), setField_id]

/-- A constructed user carries the id it was given. -/
theorem mkUser_id {data : List (String × JVal)} {i : Int} {u : User}
    (h : mkUser data i = .ok u) : u.id = i := by
  unfold mkUser at h
  cases h1 : getKey data "name" <;> cases h2 : getKey data "email" <;>
    cases h3 : getKey data "age" <;> cases h4 : getKey data "sex" <;>
    simp_all
  rw [← h]

/-! ### Controller invariant and the id counter (claim C4) -/

/-- The fresh controller satisfies the invariant. -/
theorem ctrlInv_init : CtrlInv Ctrl.init := by
  refine ⟨?_, ?_, ?_, ?_⟩ <;> simp [Ctrl.init]

/-- Creation preserves the invariant. -/
theorem ctrlInv_create (st : Ctrl) (d : List (String × JVal)) (h : CtrlInv st) :
    CtrlInv (create st d).2 := by
  obtain ⟨hids, hnd, hlt, hle⟩ := h
  unfold create
  cases hv : validate d with
  | error e => exact ⟨hids, hnd, hlt, hle⟩
  | ok u =>
    cases u
    dsimp only
    cases hm : mkUser d st.last_id with
    | error e =>
      exact ⟨hids, hnd, fun p hp => lt_trans (hlt p hp) (lt_add_one _),
        le_trans hle (le_of_lt (lt_add_one _))⟩
    | ok user =>
      dsimp only
      cases hue : update_email st.emails (some user.email) none with
      | mk err em2 =>
        cases err with
        | some e =>
          exact ⟨hids, hnd, fun p hp => lt_trans (hlt p hp) (lt_add_one _),
            le_trans hle (le_of_lt (lt_add_one _))⟩
        | none =>
          dsimp only
          have hfresh : st.last_id ∉ st.users.map Prod.fst := by
            intro hmem
            obtain ⟨p, hp, hpk⟩ := List.mem_map.mp hmem
            exact absurd (hpk ▸ hlt p hp) (lt_irrefl _)
          refine ⟨?_, ?_, ?_, le_trans hle (le_of_lt (lt_add_one _))⟩
          · intro p hp
            rcases dictSet_mem hp with h1 | h1
            · rw [h1]; exact mkUser_id hm
            · exact hids p h1
          · rw [dictSet_keys_of_not_mem hfresh]
            simp [List.nodup_append, hnd, hfresh]
          · intro p hp
            rcases dictSet_mem hp with h1 | h1
            · rw [h1]
              show st.last_id < st.last_id + 1
              omega
            · exact lt_trans (hlt p h1) (lt_add_one _)

/-- A successful lookup through `get` finds a stored binding. -/
theorem get_ok_mem {st : Ctrl} {s : String} {user : User}
    (hg : get st s = .ok user) : ∃ n, dictGet st.users n = some user := by
  unfold get at hg
  cases hp : pyParseInt s with
  | none => rw [hp] at hg; exact Except.noConfusion hg
  | some n =>
    rw [hp] at hg
    dsimp only at hg
    cases hdg : dictGet st.users n with
    | none => rw [hdg] at hg; exact Except.noConfusion hg
    | some u2 =>
      rw [hdg] at hg
      injection hg with h2
      exact ⟨n, h2 ▸ hdg⟩

/-- Updating preserves the invariant. -/
theorem ctrlInv_update (st : Ctrl) (s : String) (d : List (String × JVal))
    (h : CtrlInv st) : CtrlInv (update st s d).2 := by
  obtain ⟨hids, hnd, hlt, hle⟩ := h
  unfold update
  cases hg : get st s with
  | error e => exact ⟨hids, hnd, hlt, hle⟩
  | ok user =>
    dsimp only
    cases hv : validate d with
    | error e => exact ⟨hids, hnd, hlt, hle⟩
    | ok u =>
      cases u
      dsimp only
      cases hue : update_email st.emails (getKey d "email") (some user.email) with
      | mk err em2 =>
        cases err with
        | some e => exact ⟨hids, hnd, hlt, hle⟩
        | none =>
          dsimp only
          obtain ⟨n, hdg⟩ := get_ok_mem hg
          have hmem := dictGet_mem hdg
          have hid : user.id = n := hids (n, user) hmem
          have hkey : user.id ∈ st.users.map Prod.fst := by
            rw [hid]
            exact List.mem_map.mpr ⟨(n, user), hmem, rfl⟩
          refine ⟨?_, ?_, ?_, hle⟩
          · intro p hp
            rcases dictSet_mem hp with h1 | h1
            · rw [h1]; exact applyUpdate_id user d
            · exact hids p h1
          · rw [dictSet_keys_of_mem hkey]; exact hnd
          · intro p hp
            rcases dictSet_mem hp with h1 | h1
            · rw [h1]
              show user.id < st.last_id
              rw [hid]
              exact hlt (n, user) hmem
            · exact hlt p h1

/-- Deletion preserves the invariant. -/
theorem ctrlInv_delete (st : Ctrl) (s : String) (h : CtrlInv st) :
    CtrlInv (delete st s).2 := by
  obtain ⟨hids, hnd, hlt, hle⟩ := h
  unfold delete
  cases hg : get st s with
  | error e => exact ⟨hids, hnd, hlt, hle⟩
  | ok user =>
    dsimp only
    cases hue : update_email st.emails none (some user.email) with
    | mk err em2 =>
      cases err with
      | some e => exact ⟨hids, hnd, hlt, hle⟩
      | none =>
        dsimp only
        cases hdd : dictDel st.users user.id with
        | none => exact ⟨hids, hnd, hlt, hle⟩
        | some users2 =>
          refine ⟨?_, ?_, ?_, hle⟩
          · intro p hp; exact hids p (dictDel_mem hdd hp)
          · exact List.Nodup.sublist (dictDel_keys_sublist hdd) hnd
          · intro p hp; exact hlt p (dictDel_mem hdd hp)

/-- Every operation preserves the invariant. -/
theorem ctrlInv_step (st : Ctrl) (op : Op) (h : CtrlInv st) : CtrlInv (step st op) := by
  cases op with
  | opCreate d => exact ctrlInv_create st d h
  | opUpdate s d => exact ctrlInv_update st s d h
  | opDelete s => exact ctrlInv_delete st s h

/-- Every operation sequence preserves the invariant. -/
theorem ctrlInv_runFrom (st : Ctrl) (ops : List Op) (h : CtrlInv st) :
    CtrlInv (runFrom st ops) := by
  induction ops generalizing st with
  | nil => exact h
  | cons op rest ih => exact ih (step st op) (ctrlInv_step st op h)

/-- The counter never decreases across a `create` call. -/
theorem create_last_id_le (st : Ctrl) (d : List (String × JVal)) :
    st.last_id ≤ (create st d).2.last_id := by
  unfold create
  cases hv : validate d with
  | error e => exact le_refl _
  | ok u =>
    cases u
    dsimp only
    cases hm : mkUser d st.last_id with
    | error e =>
      show st.last_id ≤ st.last_id + 1
      omega
    | ok user =>
      dsimp only
      cases hue : update_email st.emails (some user.email) none with
      | mk err em2 =>
        cases err <;>
          · show st.last_id ≤ st.last_id + 1
            omega

/-- Updating leaves the counter unchanged. -/
theorem update_last_id (st : Ctrl) (s : String) (d : List (String × JVal)) :
    (update st s d).2.last_id = st.last_id := by
  unfold update
  cases hg : get st s with
  | error e => rfl
  | ok user =>
    dsimp only
    cases hv : validate d with
    | error e => rfl
    | ok u =>
      cases u
      dsimp only
      cases hue : update_email st.emails (getKey d "email") (some user.email) with
      | mk err em2 => cases err <;> rfl

/-- Deletion leaves the counter unchanged. -/
theorem delete_last_id (st : Ctrl) (s : String) :
    (delete st s).2.last_id = st.last_id := by
  unfold delete
  cases hg : get st s with
  | error e => rfl
  | ok user =>
    dsimp only
    cases hue : update_email st.emails none (some user.email) with
    | mk err em2 =>
      cases err with
      | some e => rfl
      | none =>
        dsimp only
        cases hdd : dictDel st.users user.id with
        | none => rfl
        | some users2 => rfl

/-- The counter never decreases across any operation. -/
theorem step_last_id_le (st : Ctrl) (op : Op) : st.last_id ≤ (step st op).last_id := by
  cases op with
  | opCreate d => exact create_last_id_le st d
  | opUpdate s d => exact le_of_eq (update_last_id st s d).symm
  | opDelete s => exact le_of_eq (delete_last_id st s).symm

/-- The counter never decreases across any operation sequence. -/
theorem runFrom_last_id_le (st : Ctrl) (ops : List Op) :
    st.last_id ≤ (runFrom st ops).last_id := by
  induction ops generalizing st with
  | nil => exact le_refl _
  | cons op rest ih =>
    exact le_trans (step_last_id_le st op) (ih (step st op))

/-- C4: the id counter starts at 1; once validation passes, a `create`
consumes exactly one id even when it later fails (in particular on an email
conflict, where the counter advances while users and emails are untouched);
a successful create returns the pre-state counter as its id; the counter is
monotone across every operation sequence; and every stored id is strictly
below the counter, so ids are never reused. -/
theorem C4_id_counter :
    Ctrl.init.last_id = 1
  ∧ (∀ st d, validate d = .ok () → (create st d).2.last_id = st.last_id + 1)
  ∧ (∀ st d ref st2, create st d = (.ok ref, st2) → ref.id = st.last_id)
  ∧ (∀ st ops, st.last_id ≤ (runFrom st ops).last_id)
  ∧ (∀ ops, ∀ p ∈ (run ops).users, p.1 < (run ops).last_id)
  ∧ (∀ st d user, validate d = .ok () → mkUser d st.last_id = .ok user →
      user.email ∈ st.emails →
      create st d = (.error (.http ⟨409, "Email is not unique"⟩),
        { st with last_id := st.last_id + 1 })) := by
  refine ⟨rfl, ?_, ?_, runFrom_last_id_le, ?_, ?_⟩
  · intro st d hv
    unfold create
    rw [hv]
    dsimp only
    cases hm : mkUser d st.last_id with
    | error e => rfl
    | ok user =>
      dsimp only
      cases hue : update_email st.emails (some user.email) none with
      | mk err em2 => cases err <;> rfl
  · intro st d ref st2 h
    unfold create at h
    cases hv : validate d with
    | error e =>
      rw [hv] at h
      injection h with h1 h2
      exact Except.noConfusion h1
    | ok u =>
      cases u
      rw [hv] at h
      dsimp only at h
      cases hm : mkUser d st.last_id with
      | error e =>
        rw [hm] at h
        injection h with h1 h2
        exact Except.noConfusion h1
      | ok user =>
        rw [hm] at h
        dsimp only at h
        cases hue : update_email st.emails (some user.email) none with
        | mk err em2 =>
          rw [hue] at h
          cases err with
          | some e =>
            dsimp only at h
            injection h with h1 h2
            exact Except.noConfusion h1
          | none =>
            dsimp only at h
            injection h with h1 h2
            injection h1 with h3
            rw [← h3]
            show user.id = st.last_id
            exact mkUser_id hm
  · intro ops
    exact (ctrlInv_runFrom Ctrl.init ops ctrlInv_init).2.2.1
  · intro st d user hv hm hmem
    unfold create
    rw [hv]
    dsimp only
    rw [hm]
    dsimp only
    unfold update_email
    rw [if_neg (by simp)]
    dsimp only
    rw [if_pos hmem]

/-- Witness for C4: creating a second user with the already-used email
a@x.com fails 409 while the counter still advances from 2 to 3 and the
store and index are untouched. -/
theorem C4_id_counter_witness :
    create st7 dataC = (.error (.http ⟨409, "Email is not unique"⟩),
      { st7 with last_id := st7.last_id + 1 }) :=
  C4_id_counter.2.2.2.2.2 st7 dataC
    ⟨2, .jstr "C", .jstr "a@x.com", .jint 40, .jstr "female"⟩ rfl rfl (by decide)

/-! ### list semantics (claim C8) -/

/-- Filtering a map only depends on the function's values on the list. -/
theorem filterMap_congr_mem (l : List Int) (f g : Int → Option User)
    (h : ∀ a ∈ l, f a = g a) : l.filterMap f = l.filterMap g := by
  induction l with
  | nil => rfl
  | cons a tl ih =>
    simp only [List.filterMap_cons, h a (List.mem_cons_self _ _),
      ih (fun b hb => h b (List.mem_cons_of_mem _ hb))]

/-- Looking every key of a duplicate-free map back up returns exactly its
values. -/
theorem filterMap_dictGet_keys {d : List (Int × User)}
    (hnd : (d.map Prod.fst).Nodup) :
    (d.map Prod.fst).filterMap (fun i => dictGet d i) = d.map Prod.snd := by
  induction d with
  | nil => rfl
  | cons hd tl ih =>
    obtain ⟨k, v⟩ := hd
    simp only [List.map_cons, List.nodup_cons] at hnd
    obtain ⟨hk, hnd2⟩ := hnd
    simp only [List.map_cons, List.filterMap_cons]
    have h0 : dictGet ((k, v) :: tl) k = some v := by simp [dictGet]
    rw [h0]
    have hcongr : ∀ a ∈ tl.map Prod.fst,
        (fun i => dictGet ((k, v) :: tl) i) a = (fun i => dictGet tl i) a := by
      intro a ha
      simp only [dictGet]
      rw [if_neg (fun hh => hk (by rw [hh]; exact ha))]
    rw [filterMap_congr_mem (tl.map Prod.fst)
      (fun i => dictGet ((k, v) :: tl) i) (fun i => dictGet tl i) hcongr]
    rw [ih hnd2]

/-- With distinct keys, `list` returns a permutation of the stored users. -/
theorem listUsers_perm (st : Ctrl) (hnd : (st.users.map Prod.fst).Nodup) :
    (listUsers st).Perm (st.users.map Prod.snd) := by
  unfold listUsers
  have hperm : (sortKeys (st.users.map Prod.fst)).Perm (st.users.map Prod.fst) :=
    List.perm_insertionSort _ _
  have h1 := hperm.filterMap (fun i => dictGet st.users i)
  rw [filterMap_dictGet_keys hnd] at h1
  exact h1

/-- When each stored entry's id equals its key, `list` output is ascending
in id. -/
theorem listUsers_sorted (st : Ctrl) (hids : ∀ p ∈ st.users, (p.2).id = p.1) :
    (listUsers st).Pairwise (fun a b => a.id ≤ b.id) := by
  unfold listUsers
  have hs : (sortKeys (st.users.map Prod.fst)).Pairwise (· ≤ ·) :=
    List.sorted_insertionSort _ _
  refine hs.filterMap _ ?_
  intro a b hab x hx y hy
  have hxa : x.id = a := by
    have h1 : dictGet st.users a = some x := by
      cases hd : dictGet st.users a with
      | none => rw [hd] at hx; exact absurd hx (by simp)
      | some u =>
        rw [hd] at hx
        rw [Option.mem_some_iff.mp hx]
    exact hids (a, x) (dictGet_mem h1)
  have hyb : y.id = b := by
    have h1 : dictGet st.users b = some y := by
      cases hd : dictGet st.users b with
      | none => rw [hd] at hy; exact absurd hy (by simp)
      | some u =>
        rw [hd] at hy
        rw [Option.mem_some_iff.mp hy]
    exact hids (b, y) (dictGet_mem h1)
  rw [hxa, hyb]
  exact hab

/-- C8: under the reachability invariants (entry ids equal their keys,
keys distinct), `list` returns exactly the stored users — a permutation of
the map's values — in ascending id order; concretely, after creating ids
1, 2, 3 and deleting 2 it returns exactly the user-1 and user-3 records. -/
theorem C8_list_sorted_exact (st : Ctrl)
    (hids : ∀ p ∈ st.users, (p.2).id = p.1)
    (hnd : (st.users.map Prod.fst).Nodup) :
    (listUsers st).Perm (st.users.map Prod.snd)
  ∧ (listUsers st).Pairwise (fun a b => a.id ≤ b.id)
  ∧ listUsers (run c8ops)
      = [⟨1, .jstr "A", .jstr "a@x.com", .jint 30, .jstr "male"⟩,
         ⟨3, .jstr "D", .jstr "d@x.com", .jint 25, .jstr "male"⟩] :=
  ⟨listUsers_perm st hnd, listUsers_sorted st hids, rfl⟩

/-- Witness for C8: after creating ids 1, 2, 3 and deleting 2, `list`
returns a permutation of the stored users and exactly the records with ids
1 and 3 in order. -/
theorem C8_list_sorted_exact_witness :
    (listUsers (run c8ops)).Perm ((run c8ops).users.map Prod.snd)
  ∧ listUsers (run c8ops)
      = [⟨1, .jstr "A", .jstr "a@x.com", .jint 30, .jstr "male"⟩,
         ⟨3, .jstr "D", .jstr "d@x.com", .jint 25, .jstr "male"⟩] :=
  ⟨(C8_list_sorted_exact (run c8ops) (by decide) (by decide)).1,
   (C8_list_sorted_exact (run c8ops) (by decide) (by decide)).2.2⟩

end Server
